import Mathlib

/-!
Verification of `libs/agno/agno/utils/mcp.py`: the MCP tool-invocation
adapter (async entrypoint `call_tool`, sync entrypoint `call_tool_sync`,
the sync bridge `_run_async_with_timeout` with its worker `run_in_thread`,
and the duplicated content-normalization loop in `_async_call_tool`).

Python strings are modelled as `List Char` so that `str.strip()` can be
modelled faithfully (Python strips the six ASCII whitespace characters
from BOTH ends).  Exceptions are modelled with `Except`: a function that
Python lets raise returns `Except Str α`; the entrypoints, which catch
everything, return plain values.  `uuid4()` is modelled as a fresh-id
supply (a counter threaded through the loop): each generated id is a new
value never produced before within the call.  Wall-clock behaviour of the
two deadlines is modelled by oracle inputs saying whether the inner
`asyncio.wait_for` deadline fired (`InnerResult.timedOut`) and whether the
worker failed to deliver a result within the outer `future.result`
deadline (`workerStuck`).
-/

/-- Python strings, modelled as lists of characters. -/
abbrev Str := List Char

/-- The six characters Python's `str.strip()` removes: space, tab,
newline, carriage return, vertical tab, form feed. -/
def pyWs (c : Char) : Bool :=
  c == ' ' || c == '\t' || c == '\n' || c == '\r' || c == '\x0B' || c == '\x0C'

/-- Python's `str.strip()`: remove `pyWs` characters from both ends. -/
def pyStrip (l : Str) : Str :=
  List.dropWhile pyWs (List.rdropWhile pyWs l)

/-- Content items of a `CallToolResult` (`mcp.types` tagged union):
`TextContent`, `ImageContent` (its `url`/`data` attributes read through
`getattr(_, _, None)`, hence optional; `mimeType` read through
`getattr(_, "mimeType", "image/png")`, hence optional with a default),
`EmbeddedResource` (its resource kept as its `model_dump_json()`
serialization), and a catch-all for any other variant carrying its
`type` tag. -/
inductive ContentItem where
  | text (t : Str)
  | image (url : Option Str) (data : Option Str) (mimeType : Option Str)
  | embeddedResource (resourceJson : Str)
  | unknown (typeTag : Str)
deriving DecidableEq, Repr

/-- Result of `session.call_tool` (`mcp.types.CallToolResult`). -/
structure CallToolResult where
  isError : Bool
  content : List ContentItem
deriving DecidableEq, Repr

/-- `agno.media.ImageArtifact` as constructed by the normalizer:
`ImageArtifact(id=str(uuid4()), url=..., content=..., mime_type=...)`.
The `uuid4` id is modelled as a `Nat` drawn from a fresh-id counter. -/
structure ImageArtifact where
  id : Nat
  url : Option Str
  content : Option Str
  mime_type : Str
deriving DecidableEq, Repr

/-- The fixed line appended for each image item (mcp.py line 59). -/
def imageAddedLine : Str :=
  "Image has been generated and added to the response.".data

/-- The line appended for an embedded resource (mcp.py line 62). -/
def embeddedResourceLine (resourceJson : Str) : Str :=
  "[Embedded resource: ".data ++ resourceJson ++ "]".data

/-- The fallback line for an unrecognized variant (mcp.py line 65). -/
def unsupportedLine (typeTag : Str) : Str :=
  "[Unsupported content type: ".data ++ typeTag ++ "]".data

/-- State threaded through the normalization loop of `call_tool`
(mcp.py lines 46-66): the accumulated `response_str`, the artifacts
handed to `agent.add_image` so far (in call order), and the fresh-id
counter modelling `uuid4`. -/
structure NormState where
  response : Str
  artifacts : List ImageArtifact
  nextId : Nat
deriving DecidableEq, Repr

/-- One iteration of the loop body of `call_tool` (mcp.py lines 47-65):
the `isinstance` chain over `TextContent` / `ImageContent` /
`EmbeddedResource` / anything else. -/
def processItem (s : NormState) : ContentItem → NormState
  | ContentItem.text t =>
      { s with response := s.response ++ t ++ ['\n'] }
  | ContentItem.image url data mimeType =>
      let art : ImageArtifact :=
        { id := s.nextId, url := url, content := data,
          mime_type := mimeType.getD "image/png".data }
      { response := s.response ++ imageAddedLine ++ ['\n'],
        artifacts := s.artifacts ++ [art],
        nextId := s.nextId + 1 }
  | ContentItem.embeddedResource r =>
      { s with response := s.response ++ embeddedResourceLine r ++ ['\n'] }
  | ContentItem.unknown tag =>
      { s with response := s.response ++ unsupportedLine tag ++ ['\n'] }

/-- The whole `for content_item in result.content` loop of `call_tool`. -/
def processContent (items : List ContentItem) (s : NormState) : NormState :=
  items.foldl processItem s

/-- Normalization as performed by `call_tool` on a successful result
(mcp.py lines 46-67): run the loop from an empty `response_str`, then
return `response_str.strip()` together with the artifacts added. -/
def normalizeContent (items : List ContentItem) (startId : Nat) :
    Str × List ImageArtifact :=
  let s := processContent items { response := [], artifacts := [], nextId := startId }
  (pyStrip s.response, s.artifacts)

/-- Model of Python's `repr` of one content item, used when the list
`result.content` is interpolated into the error f-string.  The exact
pydantic repr text is external detail; the model keeps each item's
payload visible. -/
def pyReprItem : ContentItem → Str
  | ContentItem.text t =>
      "TextContent(text=\x27".data ++ t ++ "\x27)".data
  | ContentItem.image url data mimeType =>
      "ImageContent(url=".data ++ (url.getD "None".data)
        ++ ", data=".data ++ (data.getD "None".data)
        ++ ", mimeType=".data ++ (mimeType.getD "None".data) ++ ")".data
  | ContentItem.embeddedResource r =>
      "EmbeddedResource(resource=".data ++ r ++ ")".data
  | ContentItem.unknown tag =>
      "UnknownContent(type=\x27".data ++ tag ++ "\x27)".data

/-- Model of Python's `repr` of the list `result.content` as interpolated
into `f"Error from MCP tool: ..."`. -/
def reprContent (items : List ContentItem) : Str :=
  "[".data ++ List.intercalate ", ".data (items.map pyReprItem) ++ "]".data

/-- The message of the exception raised when `result.isError` is true
(mcp.py line 43): the tool name quoted and the raw content sequence
interpolated after a fixed error designator. -/
def mcpToolErrorMessage (tool_name : Str) (content : List ContentItem) : Str :=
  "Error from MCP tool \x27".data ++ tool_name ++ "\x27: ".data ++ reprContent content

/-- The text prepended by both entrypoints when converting a caught
exception to a string (mcp.py lines 70 and 104). -/
def errorHead : Str := "Error: ".data

/-- The async entrypoint `call_tool` (mcp.py lines 32-70).  The session
call's outcome is the input: `Except.error e` when `await
session.call_tool` raised an exception with message `e` (including a
transport timeout), `Except.ok result` otherwise.  Returns the string
handed to the agent together with the artifacts passed to
`agent.add_image`; the `except Exception` handler makes the function
total (it never re-raises). -/
def call_tool (tool_name : Str) (sessionOutcome : Except Str CallToolResult) :
    Str × List ImageArtifact :=
  match sessionOutcome with
  | Except.error e => (errorHead ++ e, [])
  | Except.ok result =>
      if result.isError then
        (errorHead ++ mcpToolErrorMessage tool_name result.content, [])
      else
        normalizeContent result.content 0

/-- One iteration of the loop body of `_async_call_tool` (mcp.py lines
195-213), a verbatim duplicate of the loop in `call_tool`, translated
independently. -/
def processItem2 (s : NormState) : ContentItem → NormState
  | ContentItem.text t =>
      { s with response := s.response ++ t ++ ['\n'] }
  | ContentItem.image url data mimeType =>
      let art : ImageArtifact :=
        { id := s.nextId, url := url, content := data,
          mime_type := mimeType.getD "image/png".data }
      { response := s.response ++ imageAddedLine ++ ['\n'],
        artifacts := s.artifacts ++ [art],
        nextId := s.nextId + 1 }
  | ContentItem.embeddedResource r =>
      { s with response := s.response ++ embeddedResourceLine r ++ ['\n'] }
  | ContentItem.unknown tag =>
      { s with response := s.response ++ unsupportedLine tag ++ ['\n'] }

/-- The `for content_item in result.content` loop of `_async_call_tool`. -/
def processContent2 (items : List ContentItem) (s : NormState) : NormState :=
  items.foldl processItem2 s

/-- Normalization as performed by `_async_call_tool` (mcp.py lines
194-215). -/
def normalizeContent2 (items : List ContentItem) (startId : Nat) :
    Str × List ImageArtifact :=
  let s := processContent2 items { response := [], artifacts := [], nextId := startId }
  (pyStrip s.response, s.artifacts)

/-- The coroutine `_async_call_tool` (mcp.py lines 178-215): performs the
session call, raises (returns `Except.error`) when the session raised or
when `result.isError` is true, otherwise normalizes.  Unlike the
entrypoints it catches nothing. -/
def async_call_tool (tool_name : Str) (sessionOutcome : Except Str CallToolResult) :
    Except Str (Str × List ImageArtifact) :=
  match sessionOutcome with
  | Except.error e => Except.error e
  | Except.ok result =>
      if result.isError then
        Except.error (mcpToolErrorMessage tool_name result.content)
      else
        Except.ok (normalizeContent2 result.content 0)

/-- Outcome of running the task under the inner `asyncio.wait_for`
deadline: either the task finished (with a value or a raised exception)
before `timeout_seconds` elapsed, or the inner deadline fired. -/
inductive InnerResult (α : Type) where
  | done (r : Except Str α)
  | timedOut

/-- The message of every `TimeoutError` raised in mcp.py (lines 152, 167,
175): the interpolated f-string names the configured seconds only. -/
def timeoutMessage (timeout_seconds : Nat) : Str :=
  "MCP tool call timed out after ".data ++ (Nat.repr timeout_seconds).data
    ++ " seconds".data

/-- Observable trace of one execution of the worker `run_in_thread`
(mcp.py lines 142-156): the value returned or exception raised, how many
event loops `asyncio.new_event_loop()` created, whether `new_loop.close()`
ran, and whether `asyncio.set_event_loop(None)` cleared the thread-local
association. -/
structure WorkerTrace (α : Type) where
  result : Except Str α
  loopsCreated : Nat
  loopClosed : Bool
  tlsCleared : Bool
deriving Repr

/-- The `finally` block of `run_in_thread` (mcp.py lines 153-156):
`new_loop.close()` then `asyncio.set_event_loop(None)`, applied on every
path out of the `try`. -/
def finalizeWorker (tr : WorkerTrace α) : WorkerTrace α :=
  { tr with loopClosed := true, tlsCleared := true }

/-- The worker body `run_in_thread` (mcp.py lines 142-156): create one
fresh event loop, set it as the thread's loop, run the coroutine under
the inner `asyncio.wait_for(coro, timeout=timeout_seconds)` deadline,
turn `asyncio.TimeoutError` into `TimeoutError(timeoutMessage)`, and pass
every outcome (return, timeout re-raise, any other exception) through the
`finally` cleanup. -/
def run_in_thread (timeout_seconds : Nat) (inner : InnerResult α) : WorkerTrace α :=
  finalizeWorker
    (match inner with
     | InnerResult.done r =>
         { result := r, loopsCreated := 1, loopClosed := false, tlsCleared := false }
     | InnerResult.timedOut =>
         { result := Except.error (timeoutMessage timeout_seconds),
           loopsCreated := 1, loopClosed := false, tlsCleared := false })

/-- Which of the two execution branches `_run_async_with_timeout` chose,
with the deadlines it configured: `direct` runs on the calling thread
under the inner deadline; `worker` submits to a
`ThreadPoolExecutor(max_workers=1)` whose task runs under the inner
deadline while the calling thread waits on `future.result` under the
outer deadline. -/
inductive ExecPlan where
  | direct (inner : Nat)
  | worker (maxWorkers : Nat) (inner : Nat) (outer : Nat)
deriving DecidableEq, Repr

/-- The sync bridge `_run_async_with_timeout` (mcp.py lines 109-175).
`schedulerRunning` is the outcome of the `asyncio.get_running_loop()`
probe (`false` means it raised `RuntimeError`); `inner` is the oracle
for the task under its inner deadline; `workerStuck` is the oracle for
whether `future.result(timeout=timeout_seconds + 5)` timed out before
the worker delivered.  Returns the branch taken with its deadlines, and
the value returned or exception raised. -/
def run_async_with_timeout (timeout_seconds : Nat) (schedulerRunning : Bool)
    (inner : InnerResult α) (workerStuck : Bool) : ExecPlan × Except Str α :=
  if schedulerRunning then
    let tr := run_in_thread timeout_seconds inner
    (ExecPlan.worker 1 timeout_seconds (timeout_seconds + 5),
     if workerStuck then Except.error (timeoutMessage timeout_seconds)
     else tr.result)
  else
    (ExecPlan.direct timeout_seconds,
     match inner with
     | InnerResult.done r => r
     | InnerResult.timedOut => Except.error (timeoutMessage timeout_seconds))

/-- Default of the `timeout_seconds` parameter of
`get_entrypoint_for_tool` and `get_sync_entrypoint_for_tool`
(mcp.py lines 18 and 75). -/
def defaultTimeoutSeconds : Nat := 30

/-- The sync entrypoint `call_tool_sync` (mcp.py lines 90-104): run
`_async_call_tool` through the bridge, catching every exception and
converting it to an error string.  `innerTimedOut` is the oracle for the
inner deadline firing before the coroutine finished. -/
def call_tool_sync (tool_name : Str) (timeout_seconds : Nat)
    (schedulerRunning workerStuck : Bool)
    (sessionOutcome : Except Str CallToolResult) (innerTimedOut : Bool) :
    Str × List ImageArtifact :=
  let inner : InnerResult (Str × List ImageArtifact) :=
    if innerTimedOut then InnerResult.timedOut
    else InnerResult.done (async_call_tool tool_name sessionOutcome)
  match (run_async_with_timeout timeout_seconds schedulerRunning inner workerStuck).2 with
  | Except.ok v => v
  | Except.error e => (errorHead ++ e, [])

/-- The textual segment one content item contributes to `response_str`,
read off the branches of `processItem`. -/
def segOf : ContentItem → Str
  | ContentItem.text t => t
  | ContentItem.image _ _ _ => imageAddedLine
  | ContentItem.embeddedResource r => embeddedResourceLine r
  | ContentItem.unknown tag => unsupportedLine tag

/-- Concatenate segments, each followed by one newline, as the
accumulation `response_str += seg + "\n"` does. -/
def joinNL : List Str → Str
  | [] => []
  | s :: rest => s ++ '\n' :: joinNL rest

/-- Join segments with a separator between consecutive segments and
nothing at either end. -/
def joinSep (sep : Str) : List Str → Str
  | [] => []
  | [s] => s
  | s :: s2 :: rest => s ++ sep ++ joinSep sep (s2 :: rest)

/-- Whether a content item is an image item. -/
def isImage : ContentItem → Bool
  | ContentItem.image _ _ _ => true
  | _ => false

/-- The (url, content, mime_type) triple the normalizer puts into the
artifact of an image item; `none` for other items. -/
def imageView : ContentItem → Option (Option Str × Option Str × Str)
  | ContentItem.image url data mimeType =>
      some (url, data, mimeType.getD "image/png".data)
  | _ => none

/-- The artifacts the loop hands to `agent.add_image`, by item order,
with ids drawn from the fresh-id counter starting at `n`. -/
def artifactsFrom (n : Nat) : List ContentItem → List ImageArtifact
  | [] => []
  | ContentItem.image url data mimeType :: rest =>
      { id := n, url := url, content := data,
        mime_type := mimeType.getD "image/png".data } :: artifactsFrom (n + 1) rest
  | ContentItem.text _ :: rest => artifactsFrom n rest
  | ContentItem.embeddedResource _ :: rest => artifactsFrom n rest
  | ContentItem.unknown _ :: rest => artifactsFrom n rest

/-- Modelled from the spec words for claim comparison: normalization that
trims ONLY trailing whitespace from the final joined string, as section
4.1 of the spec describes it.  The code instead calls `str.strip()`. -/
def specTrailingOnlyNormalize (items : List ContentItem) : Str :=
  List.rdropWhile pyWs
    (processContent items { response := [], artifacts := [], nextId := 0 }).response

theorem processItem2_eq (s : NormState) (it : ContentItem) :
    processItem2 s it = processItem s it := by
  cases it <;> rfl

theorem processContent2_eq (items : List ContentItem) (s : NormState) :
    processContent2 items s = processContent items s := by
  induction items generalizing s with
  | nil => rfl
  | cons it rest ih =>
      show processContent2 rest (processItem2 s it) = processContent rest (processItem s it)
      rw [processItem2_eq]
      exact ih _

theorem normalizeContent2_eq (items : List ContentItem) (n : Nat) :
    normalizeContent2 items n = normalizeContent items n := by
  unfold normalizeContent2 normalizeContent
  rw [processContent2_eq]

theorem processContent_spec (items : List ContentItem) (s : NormState) :
    processContent items s =
      { response := s.response ++ joinNL (items.map segOf),
        artifacts := s.artifacts ++ artifactsFrom s.nextId items,
        nextId := s.nextId + items.countP isImage } := by
  induction items generalizing s with
  | nil => simp [processContent, joinNL, artifactsFrom]
  | cons it rest ih =>
      show processContent rest (processItem s it) = _
      rw [ih]
      cases it <;>
        simp [processItem, segOf, joinNL, artifactsFrom, isImage, List.countP_cons,
          List.append_assoc, Nat.add_comm, Nat.add_assoc, Nat.add_left_comm]

theorem joinNL_eq_joinSep (s : Str) (rest : List Str) :
    joinNL (s :: rest) = joinSep ['\n'] (s :: rest) ++ ['\n'] := by
  induction rest generalizing s with
  | nil => simp [joinNL, joinSep]
  | cons s2 rest ih =>
      show s ++ '\n' :: joinNL (s2 :: rest) = (s ++ ['\n'] ++ joinSep ['\n'] (s2 :: rest)) ++ ['\n']
      rw [ih]
      simp

theorem pyStrip_concat_newline (xs : Str) : pyStrip (xs ++ ['\n']) = pyStrip xs := by
  unfold pyStrip
  rw [List.rdropWhile_concat_pos pyWs xs '\n' (by decide)]

theorem normalizeContent_fst (items : List ContentItem) (n : Nat) :
    (normalizeContent items n).1 = pyStrip (joinSep ['\n'] (items.map segOf)) := by
  cases items with
  | nil => rfl
  | cons it rest =>
      show pyStrip (processContent (it :: rest) ⟨[], [], n⟩).response = _
      rw [processContent_spec]
      show pyStrip ([] ++ joinNL (segOf it :: rest.map segOf)) = _
      rw [List.nil_append, joinNL_eq_joinSep, pyStrip_concat_newline]
      rfl

theorem normalizeContent_snd (items : List ContentItem) (n : Nat) :
    (normalizeContent items n).2 = artifactsFrom n items := by
  show (processContent items ⟨[], [], n⟩).artifacts = _
  rw [processContent_spec]
  simp

theorem artifactsFrom_view (n : Nat) (items : List ContentItem) :
    (artifactsFrom n items).map (fun a => (a.url, a.content, a.mime_type))
      = items.filterMap imageView := by
  induction items generalizing n with
  | nil => rfl
  | cons it rest ih =>
      cases it <;> simp [artifactsFrom, imageView, List.filterMap_cons, ih]

theorem artifactsFrom_length (n : Nat) (items : List ContentItem) :
    (artifactsFrom n items).length = items.countP isImage := by
  induction items generalizing n with
  | nil => rfl
  | cons it rest ih =>
      cases it <;> simp [artifactsFrom, isImage, List.countP_cons, ih]

theorem artifactsFrom_ids (n : Nat) (items : List ContentItem) :
    (artifactsFrom n items).map ImageArtifact.id
      = List.range' n (artifactsFrom n items).length := by
  induction items generalizing n with
  | nil => rfl
  | cons it rest ih =>
      cases it <;> simp [artifactsFrom, ih, List.range'_succ]

/-- C1 (amended): for every sequence of content items, the normalized
string is the segments of the items, in item order with no segment
omitted, joined with exactly one newline between consecutive segments,
with leading AND trailing whitespace trimmed from the joined string (so
the result has no trailing newline).  The code calls `str.strip()`,
which trims both ends, not only the trailing end. -/
theorem C1_normalized_segments (items : List ContentItem) (startId : Nat) :
    (normalizeContent items startId).1 = pyStrip (joinSep ['\n'] (items.map segOf))
    ∧ (items.map segOf).length = items.length :=
  ⟨normalizeContent_fst items startId, by simp⟩

/-- C1 counterexample: on the single content item `Text(" a")` the code
returns `"a"` (leading whitespace stripped too), while trimming only
trailing whitespace from the joined string would return `" a"`; so the
claim that only trailing whitespace is trimmed is false. -/
theorem C1_trailing_only_counterexample :
    (normalizeContent [ContentItem.text (' ' :: ['a'])] 0).1
      ≠ specTrailingOnlyNormalize [ContentItem.text (' ' :: ['a'])] := by
  decide

/-- C2: every exception raised inside the executor is converted by both
entrypoints to the string `"Error: " + message` and nothing is re-raised
(both entrypoints are total functions into strings): a session exception
`e` yields `"Error: " + e` through `call_tool` and through
`call_tool_sync`; an inner-deadline timeout and an outer-deadline
(stuck-worker) timeout yield `"Error: " + timeoutMessage` through
`call_tool_sync`. -/
theorem C2_error_isolation (tool_name e : Str) (t : Nat) (sched stuck : Bool)
    (so : Except Str CallToolResult) :
    call_tool tool_name (Except.error e) = (errorHead ++ e, [])
    ∧ call_tool_sync tool_name t sched false (Except.error e) false = (errorHead ++ e, [])
    ∧ call_tool_sync tool_name t sched stuck so true = (errorHead ++ timeoutMessage t, [])
    ∧ call_tool_sync tool_name t true true so false = (errorHead ++ timeoutMessage t, [])
    ∧ errorHead = "Error: ".data := by
  refine ⟨rfl, ?_, ?_, rfl, rfl⟩
  · cases sched <;> rfl
  · cases sched <;> cases stuck <;> rfl

/-- C3: for every content sequence, the artifacts handed to
`agent.add_image` are exactly one per image item, in encounter order,
carrying the item's url, data and mimeType (defaulting to "image/png"
when absent); their ids are consecutive fresh values from the id supply,
hence pairwise distinct; their number equals the number of image items
regardless of other item types; and each image item contributes the
fixed placeholder line to the output. -/
theorem C3_image_artifacts (items : List ContentItem) (startId : Nat) :
    ((normalizeContent items startId).2).map (fun a => (a.url, a.content, a.mime_type))
        = items.filterMap imageView
    ∧ ((normalizeContent items startId).2).map ImageArtifact.id
        = List.range' startId ((normalizeContent items startId).2).length
    ∧ (((normalizeContent items startId).2).map ImageArtifact.id).Nodup
    ∧ ((normalizeContent items startId).2).length = items.countP isImage
    ∧ (∀ u d m, segOf (ContentItem.image u d m) = imageAddedLine) := by
  refine ⟨?_, ?_, ?_, ?_, fun u d m => rfl⟩
  · rw [normalizeContent_snd]; exact artifactsFrom_view _ _
  · rw [normalizeContent_snd]; exact artifactsFrom_ids _ _
  · rw [normalizeContent_snd, artifactsFrom_ids]; exact List.nodup_range' _ _
  · rw [normalizeContent_snd]; exact artifactsFrom_length _ _

/-- C4: a `CallToolResult` with `isError = true` is never normalized:
`call_tool` returns the error string (with zero `add_image` calls), the
coroutine `_async_call_tool` raises before its normalization loop, the
sync entrypoint returns the same error string, and the raised message
contains the tool name and the raw content sequence after the fixed
error designator. -/
theorem C4_isError_short_circuit (tool_name : Str) (content : List ContentItem)
    (t : Nat) (sched : Bool) :
    call_tool tool_name (Except.ok ⟨true, content⟩)
        = (errorHead ++ mcpToolErrorMessage tool_name content, [])
    ∧ async_call_tool tool_name (Except.ok ⟨true, content⟩)
        = Except.error (mcpToolErrorMessage tool_name content)
    ∧ call_tool_sync tool_name t sched false (Except.ok ⟨true, content⟩) false
        = (errorHead ++ mcpToolErrorMessage tool_name content, [])
    ∧ (∃ a b, mcpToolErrorMessage tool_name content = a ++ tool_name ++ b)
    ∧ (∃ a b, mcpToolErrorMessage tool_name content = a ++ reprContent content ++ b) := by
  refine ⟨rfl, rfl, ?_, ?_, ?_⟩
  · cases sched <;> rfl
  · exact ⟨"Error from MCP tool \x27".data, "\x27: ".data ++ reprContent content,
      by simp [mcpToolErrorMessage]⟩
  · exact ⟨"Error from MCP tool \x27".data ++ tool_name ++ "\x27: ".data, [],
      by simp [mcpToolErrorMessage]⟩

/-- C5: for a fixed successful `CallToolResult`, the async entrypoint and
the sync entrypoint invoked with no running scheduler produce identical
output strings (the two duplicated normalization loops compute the same
function of the content sequence). -/
theorem C5_sync_async_equiv (tool_name : Str) (t : Nat) (content : List ContentItem) :
    (call_tool tool_name (Except.ok ⟨false, content⟩)).1
      = (call_tool_sync tool_name t false false (Except.ok ⟨false, content⟩) false).1 := by
  show (normalizeContent content 0).1 = (normalizeContent2 content 0).1
  rw [normalizeContent2_eq]

/-- C6 counterexample: invoking tool "X" through the sync path with
timeout 2 and an elapsed inner deadline raises the `TimeoutError` whose
message is exactly "MCP tool call timed out after 2 seconds"; the
character X does not occur in that message, so the message does not name
the invoked tool, refuting the claim that it does. -/
theorem C6_timeout_message_counterexample :
    (run_async_with_timeout 2 false
        (InnerResult.timedOut : InnerResult (Str × List ImageArtifact)) false).2
      = Except.error (timeoutMessage 2)
    ∧ (call_tool_sync ['X'] 2 false false (Except.ok ⟨false, []⟩) true).1
      = errorHead ++ timeoutMessage 2
    ∧ timeoutMessage 2 = "MCP tool call timed out after 2 seconds".data
    ∧ 'X' ∉ timeoutMessage 2 := by
  refine ⟨rfl, rfl, by decide, by decide⟩

/-- C6 (amended): whenever the inner or the outer deadline elapses in the
sync path, a `TimeoutError` is raised before conversion to text whose
message states the configured `timeout_seconds` value; the message is
the fixed text "MCP tool call timed out after N seconds" and does not
mention the tool name. -/
theorem C6_timeout_message (α : Type) (t : Nat) (inner : InnerResult α) :
    (run_in_thread t (InnerResult.timedOut : InnerResult α)).result
        = Except.error (timeoutMessage t)
    ∧ (run_async_with_timeout t true inner true).2 = Except.error (timeoutMessage t)
    ∧ (run_async_with_timeout t false (InnerResult.timedOut : InnerResult α) false).2
        = Except.error (timeoutMessage t)
    ∧ (∃ a b, timeoutMessage t = a ++ (Nat.repr t).data ++ b) := by
  refine ⟨rfl, rfl, rfl, "MCP tool call timed out after ".data, " seconds".data, ?_⟩
  simp [timeoutMessage]

/-- C7: the sync bridge decides between exactly two branches based solely
on whether a scheduler is running on the calling thread: no scheduler
gives the direct branch with inner deadline `timeout_seconds`; a running
scheduler gives the single-worker branch (`max_workers=1`) with the same
inner deadline and an outer deadline of exactly `timeout_seconds + 5`;
the configured default is 30 seconds. -/
theorem C7_bridge_plan (α : Type) (t : Nat) (sched stuck : Bool) (inner : InnerResult α) :
    (run_async_with_timeout t sched inner stuck).1
        = (if sched then ExecPlan.worker 1 t (t + 5) else ExecPlan.direct t)
    ∧ defaultTimeoutSeconds = 30 := by
  refine ⟨?_, rfl⟩
  cases sched <;> rfl

/-- C8: on every execution path through the worker (success, raised
exception carried in the task outcome, or inner timeout) the freshly
created event loop is closed and the thread-local scheduler association
is cleared before the worker exits, and exactly one event loop is
created for the worker's lifetime. -/
theorem C8_worker_cleanup (α : Type) (t : Nat) (inner : InnerResult α) :
    (run_in_thread t inner).loopClosed = true
    ∧ (run_in_thread t inner).tlsCleared = true
    ∧ (run_in_thread t inner).loopsCreated = 1 := by
  cases inner <;> exact ⟨rfl, rfl, rfl⟩

/-- C9: normalization is total over the content variants: an embedded
resource contributes "[Embedded resource: " + JSON + "]", any
unrecognized variant contributes "[Unsupported content type: " + tag +
"]", and processing any item sequence is defined, contributing exactly
one segment per item in order. -/
theorem C9_normalizer_total (items : List ContentItem) (s : NormState) :
    (∀ r, segOf (ContentItem.embeddedResource r)
        = "[Embedded resource: ".data ++ r ++ "]".data)
    ∧ (∀ tag, segOf (ContentItem.unknown tag)
        = "[Unsupported content type: ".data ++ tag ++ "]".data)
    ∧ (processContent items s).response = s.response ++ joinNL (items.map segOf)
    ∧ (items.map segOf).length = items.length := by
  refine ⟨fun r => rfl, fun tag => rfl, ?_, by simp⟩
  rw [processContent_spec]

/-- C10: a successful result with empty content yields exactly the empty
string (not an error string) from both entrypoints, with zero
`add_image` calls. -/
theorem C10_empty_content (tool_name : Str) (t : Nat) (sched : Bool) :
    call_tool tool_name (Except.ok ⟨false, []⟩) = ([], [])
    ∧ call_tool_sync tool_name t sched false (Except.ok ⟨false, []⟩) false = ([], []) := by
  refine ⟨rfl, ?_⟩
  cases sched <;> rfl
